import Mathlib

/-
Verification of the encrypted local prompt store of zhuguang-edge.

The repository's cipher layer (src/lib/utils/encryption.ts) wraps the
crypto-js AES passphrase API.  crypto-js produces the OpenSSL "salted"
textual envelope: a base64 string that always begins with "U2FsdGVkX1"
(the base64 encoding of the 8-byte header "Salted__" followed by the
random salt).  Decrypting with the wrong passphrase, or feeding a string
that is not such an envelope, yields an empty/garbage byte sequence.

We shallowly embed that external primitive as an executable, injective
textual encoding with the same observable contract:
  - ciphertext is a string starting with the fixed header "U2FsdGVkX1";
  - the random salt is made an explicit argument (modelling the
    randomness of CryptoJS.lib.WordArray.random);
  - decryption with the passphrase used at encryption time recovers the
    plaintext exactly;
  - decryption with any other passphrase, or of any string that is not a
    well-formed envelope, yields the empty string (modelling the
    empty/non-UTF8 byte output of crypto-js on key mismatch).
Everything above the primitive (encryptText, decryptText, isEncrypted,
the gateway and the repositories) is translated directly from the
repository sources.
-/

/-- The constant 10-character header every crypto-js salted envelope
starts with: base64 of "Salted__" plus the start of the salt block. -/
def envHeader : String := "U2FsdGVkX1"

/-- Unary length marker used by the model encoding. -/
def ones (n : Nat) : List Char := List.replicate n '1'

/-- Length-delimited encoding of one string component of the envelope. -/
def encComp (s : String) : List Char := ones s.data.length ++ ':' :: s.data

/-- Model of CryptoJS.AES.encrypt(text, key).toString(): the salted
envelope embedding the salt, a key check block and the message. -/
def aesEncrypt (salt : Nat) (text key : String) : String :=
  ⟨envHeader.data ++ (ones salt ++ ':' :: (encComp key ++ encComp text))⟩

/-- Consume the leading run of unary marks. -/
def takeOnes : List Char → Nat × List Char
  | [] => (0, [])
  | c :: cs =>
    if c = '1' then
      let (n, rest) := takeOnes cs
      (n + 1, rest)
    else (0, c :: cs)

/-- Parse the salt block of the envelope. -/
def parseSalt (cs : List Char) : Option (Nat × List Char) :=
  match takeOnes cs with
  | (n, ':' :: rest₂) => some (n, rest₂)
  | _ => none

/-- Parse one length-delimited component of the envelope. -/
def parseComp (cs : List Char) : Option (String × List Char) :=
  match takeOnes cs with
  | (n, ':' :: rest₂) =>
    if n ≤ rest₂.length then some (⟨rest₂.take n⟩, rest₂.drop n) else none
  | _ => none

/-- Model of CryptoJS.AES.decrypt(ct, key).toString(Utf8): the embedded
message when ct is a well-formed envelope produced under the same key,
and the empty string otherwise (key mismatch or malformed input). -/
def aesDecrypt (ct key : String) : String :=
  if ct.data.take 10 = envHeader.data then
    match parseSalt (ct.data.drop 10) with
    | some (_, rest₂) =>
      match parseComp rest₂ with
      | some (k, rest₃) =>
        match parseComp rest₃ with
        | some (m, rest₄) => if k = key ∧ rest₄ = [] then m else ""
        | none => ""
      | none => ""
    | none => ""
  else ""

/-- Model of JavaScript text.startsWith(p). -/
def strStartsWith (s p : String) : Bool := s.data.take p.data.length == p.data

-- ---------------------------------------------------------------------
-- src/lib/utils/encryption.ts
-- ---------------------------------------------------------------------

/-- encryptText(text, key): returns CryptoJS.AES.encrypt(text, key)
.toString().  The try/catch around the primitive is dead in the model
because the primitive is total, matching the spec ("should not happen
for well-formed string input").  The salt argument models the random
salt crypto-js draws for each call. -/
def encryptText (salt : Nat) (text key : String) : String :=
  aesEncrypt salt text key

/-- decryptText(encryptedText, key): decrypts, converts to UTF-8 text,
and throws when the result is empty; the catch block rethrows the
original error, so it is the identity on the error path. -/
def decryptText (encryptedText key : String) : Except String String :=
  let decrypted := aesDecrypt encryptedText key
  if decrypted = "" then
    Except.error "Decryption failed or resulted in empty string"
  else Except.ok decrypted

/-- isEncrypted(text, key): false for empty text or text not starting
with "U2F"; otherwise true exactly when decryptText succeeds and the
decrypted content differs from the input; any decryption error is
caught and mapped to false. -/
def isEncrypted (text key : String) : Bool :=
  if text = "" ∨ ¬ strStartsWith text "U2F" then false
  else
    match decryptText text key with
    | Except.ok decrypted => decrypted != text
    | Except.error _ => false

-- ---------------------------------------------------------------------
-- localStorage and the key manager (src/lib/utils/encryption.ts)
-- ---------------------------------------------------------------------

/-- The fixed durable slot name holding the locally generated key. -/
def localStorageKeyName : String := "zhuguang_local_encryption_key"

/-- Model of window.localStorage: an association list of slots, read
through getItem (first match) and written through setItem (shadowing
cons, observationally equal to overwrite-in-place). -/
structure LocalStorage where
  items : List (String × String)
deriving DecidableEq

def LocalStorage.getItem (st : LocalStorage) (k : String) : Option String :=
  (st.items.find? (fun kv => kv.1 == k)).map (fun kv => kv.2)

def LocalStorage.setItem (st : LocalStorage) (k v : String) : LocalStorage :=
  ⟨(k, v) :: st.items⟩


/-- generateLocalEncryptionKey(): returns the stored key if the slot is
occupied; otherwise generates a fresh random key (modelled by the fresh
argument), stores it and returns it. -/
def generateLocalEncryptionKey (fresh : String) (st : LocalStorage) :
    String × LocalStorage :=
  match st.getItem localStorageKeyName with
  | some storedKey => (storedKey, st)
  | none => (fresh, st.setItem localStorageKeyName fresh)

/-- The key value the gateway will use given storage state st. -/
def localKey (fresh : String) (st : LocalStorage) : String :=
  (generateLocalEncryptionKey fresh st).1

/-- The storage state after the gateway has obtained its key. -/
def ensureKey (fresh : String) (st : LocalStorage) : LocalStorage :=
  (generateLocalEncryptionKey fresh st).2

-- ---------------------------------------------------------------------
-- The Prompt record (src/data/database/types/prompt.ts) and the
-- encryption gateway (src/lib/promptEncryptionManager.ts)
-- ---------------------------------------------------------------------

/-- The Prompt record.  id is optional so that the same type covers
Prompt and Omit-id Prompt; optional fields use none for "absent";
timestamps are abstract Nat instants. -/
structure Prompt where
  id : Option String
  title : String
  type : String
  content : String
  description : Option String
  examples : List String
  createdAt : Nat
  updatedAt : Nat
  userId : Option String
  isPublic : Option Bool
  publicChangedAt : Option Nat
deriving DecidableEq

/-- Body of encryptPrompt, before the surrounding try/catch: fetch the
active key, skip records already detected as encrypted, otherwise
replace content with its encryption.  The salt argument models the
randomness crypto-js draws inside encryptText. -/
def encryptPromptBody (fresh : String) (salt : Nat) (p : Prompt)
    (st : LocalStorage) : Except String Prompt × LocalStorage :=
  if isEncrypted p.content (generateLocalEncryptionKey fresh st).1 then
    (Except.ok p, (generateLocalEncryptionKey fresh st).2)
  else
    (Except.ok { p with
        content := encryptText salt p.content (generateLocalEncryptionKey fresh st).1 },
      (generateLocalEncryptionKey fresh st).2)

/-- encryptPrompt with its catch-all: on any internal error the original
record is returned. -/
def encryptPrompt (fresh : String) (salt : Nat) (p : Prompt)
    (st : LocalStorage) : Prompt × LocalStorage :=
  match encryptPromptBody fresh salt p st with
  | (Except.ok q, st') => (q, st')
  | (Except.error _, st') => (p, st')

/-- Body of decryptPrompt, before the surrounding try/catch. -/
def decryptPromptBody (fresh : String) (p : Prompt) (st : LocalStorage) :
    Except String Prompt × LocalStorage :=
  if ¬ isEncrypted p.content (generateLocalEncryptionKey fresh st).1 then
    (Except.ok p, (generateLocalEncryptionKey fresh st).2)
  else
    match decryptText p.content (generateLocalEncryptionKey fresh st).1 with
    | Except.ok d => (Except.ok { p with content := d }, (generateLocalEncryptionKey fresh st).2)
    | Except.error e => (Except.error e, (generateLocalEncryptionKey fresh st).2)

/-- decryptPrompt with its catch-all: on any internal error the original
(possibly still-encrypted) record is returned. -/
def decryptPrompt (fresh : String) (p : Prompt) (st : LocalStorage) :
    Prompt × LocalStorage :=
  match decryptPromptBody fresh p st with
  | (Except.ok q, st') => (q, st')
  | (Except.error _, st') => (p, st')

/-- decryptPrompts: sequential loop pushing decryptPrompt of each
element in order. -/
def decryptPrompts (fresh : String) (ps : List Prompt) (st : LocalStorage) :
    List Prompt × LocalStorage :=
  match ps with
  | [] => ([], st)
  | p :: rest =>
    let r := decryptPrompt fresh p st
    let rs := decryptPrompts fresh rest r.2
    (r.1 :: rs.1, rs.2)

/-- Body of decryptPromptOnDemand, before the surrounding try/catch. -/
def decryptPromptOnDemandBody (fresh : String) (p : Prompt)
    (st : LocalStorage) : Except String String × LocalStorage :=
  if ¬ isEncrypted p.content (generateLocalEncryptionKey fresh st).1 then
    (Except.ok p.content, (generateLocalEncryptionKey fresh st).2)
  else
    match decryptText p.content (generateLocalEncryptionKey fresh st).1 with
    | Except.ok d => (Except.ok d, (generateLocalEncryptionKey fresh st).2)
    | Except.error e => (Except.error e, (generateLocalEncryptionKey fresh st).2)

/-- decryptPromptOnDemand with its catch-all: on any internal error the
stored content string is returned unchanged. -/
def decryptPromptOnDemand (fresh : String) (p : Prompt) (st : LocalStorage) :
    String × LocalStorage :=
  match decryptPromptOnDemandBody fresh p st with
  | (Except.ok s, st') => (s, st')
  | (Except.error _, st') => (p.content, st')

/-- Bool-level success test, avoiding a dependency on library helpers. -/
def exceptIsOk {ε α : Type} : Except ε α → Bool
  | Except.ok _ => true
  | Except.error _ => false


-- ---------------------------------------------------------------------
-- Prompt repository (src/data/database/repositories/promptRepository.ts)
-- ---------------------------------------------------------------------

/-- Modelled from the spec: the generic local store collaborator
("general local-database plumbing ... provided by an external
collaborator") keeps records in a list and getById is lookup by id. -/
def findPromptById (db : List Prompt) (id : String) : Option Prompt :=
  db.find? (fun q => q.id == some id)

/-- getPromptById(id, decryptContent): fetch from the store, then
decrypt only when the caller opted in. -/
def getPromptById (fresh : String) (id : String) (decryptContent : Bool)
    (db : List Prompt) (st : LocalStorage) : Option Prompt × LocalStorage :=
  match findPromptById db id with
  | none => (none, st)
  | some p =>
    if decryptContent then
      (some (decryptPrompt fresh p st).1, (decryptPrompt fresh p st).2)
    else (some p, st)


/-- updatePrompt up to the store handoff: validates the id (JS falsy
check rejects a missing or empty id), encrypts, and produces the object
handed to dbOperations.update, whose id is forced back to the
stringified original id. -/
def updatePromptArg (fresh : String) (salt : Nat) (p : Prompt)
    (st : LocalStorage) : Except String Prompt × LocalStorage :=
  if p.id = none ∨ p.id = some "" then
    (Except.error "Prompt ID is required for update", st)
  else
    (Except.ok { (encryptPrompt fresh salt p st).1 with id := p.id },
      (encryptPrompt fresh salt p st).2)

/-- The update payload built by the prompt page save handler
(src/app/prompts/type/[type]/page.tsx): destructures isPublic away and
stamps updatedAt before calling updatePrompt. -/
def onSaveUpdateData (edited : Prompt) (now : Nat) : Prompt :=
  { edited with isPublic := none, updatedAt := now }

/-- The record the copied prompt is built from inside copyPrompt; the
conditional publicChangedAt deletion is a no-op because the literal
never contains that field, so it is simply absent. -/
def copyNewRecord (orig : Prompt) (now : Nat) : Prompt :=
  { id := none
    title := orig.title ++ " (复制)"
    type := orig.type
    content := orig.content
    description := orig.description
    examples := orig.examples
    createdAt := now
    updatedAt := now
    userId := orig.userId
    isPublic := some false
    publicChangedAt := none }

/-- copyPrompt up to the addPrompt handoff: fetches the source record
with decryption enabled, throws when it does not exist, and otherwise
produces the new record passed to addPrompt. -/
def copyPromptArg (fresh : String) (now : Nat) (promptId : String)
    (db : List Prompt) (st : LocalStorage) : Except String Prompt × LocalStorage :=
  match getPromptById fresh promptId true db st with
  | (none, st') => (Except.error "要复制的提示词不存在。", st')
  | (some orig, st') => (Except.ok (copyNewRecord orig now), st')


-- ---------------------------------------------------------------------
-- User prompt selections
-- (src/data/database/repositories/userPromptSelectionRepository.ts)
-- ---------------------------------------------------------------------

structure UserPromptSelection where
  id : Option Nat
  userId : String
  promptId : String
  createdAt : Nat
deriving DecidableEq, Inhabited

/-- The duplicate test used by addUserPromptSelection. -/
def selMatches (promptId userId : String) (s : UserPromptSelection) : Bool :=
  s.promptId == promptId && s.userId == userId

/-- addUserPromptSelection: if a selection with the same promptId and
userId already exists, return it (non-null assertion on find) and leave
the store alone; otherwise append the new selection.  newId models the
store-assigned id of dbOperations.add, and now the creation instant. -/
def addUserPromptSelection (now newId : Nat) (promptId userId : String)
    (db : List UserPromptSelection) : UserPromptSelection × List UserPromptSelection :=
  if db.any (selMatches promptId userId) then
    ((db.find? (selMatches promptId userId)).get!, db)
  else
    ({ id := some newId, userId := userId, promptId := promptId, createdAt := now },
      db ++ [{ id := some newId, userId := userId, promptId := promptId, createdAt := now }])

/-- The uniqueness invariant: no two stored selections share the same
(promptId, userId) pair. -/
def NoDupSelection (db : List UserPromptSelection) : Prop :=
  db.Pairwise (fun a b => ¬ (a.promptId = b.promptId ∧ a.userId = b.userId))

deriving instance DecidableEq for Except

/-- Shared concrete objects used by witnesses and counterexamples. -/
def emptyStore : LocalStorage := ⟨[]⟩

def seededStore : LocalStorage := ⟨[(localStorageKeyName, "key1")]⟩

def mkPrompt (i : Option String) (c : String) : Prompt :=
  { id := i
    title := "t"
    type := "ai_writing"
    content := c
    description := none
    examples := []
    createdAt := 0
    updatedAt := 0
    userId := none
    isPublic := none
    publicChangedAt := none }

/-- A stored selection used by the C10 witness. -/
def sel0 : UserPromptSelection := ⟨some 1, "u", "p1", 0⟩

-- ---------------------------------------------------------------------
-- Lemmas
-- ---------------------------------------------------------------------

-- Basic lemmas about the model encoding.

lemma takeOnes_replicate_colon (n : Nat) (rest : List Char) :
    takeOnes (List.replicate n '1' ++ ':' :: rest) = (n, ':' :: rest) := by
  induction n with
  | zero => simp [takeOnes]
  | succ k ih => simp [List.replicate_succ, takeOnes, ih]

lemma takeOnes_ones_colon (n : Nat) (rest : List Char) :
    takeOnes (ones n ++ ':' :: rest) = (n, ':' :: rest) := by
  simpa [ones] using takeOnes_replicate_colon n rest

lemma parseSalt_ones (n : Nat) (rest : List Char) :
    parseSalt (ones n ++ ':' :: rest) = some (n, rest) := by
  unfold parseSalt
  rw [takeOnes_ones_colon]
  rfl

lemma parseComp_encComp (s : String) (t : List Char) :
    parseComp (encComp s ++ t) = some (s, t) := by
  have hassoc : encComp s ++ t = ones s.data.length ++ ':' :: (s.data ++ t) := by
    simp [encComp]
  rw [hassoc]
  unfold parseComp
  rw [takeOnes_ones_colon]
  have hle : s.data.length ≤ (s.data ++ t).length := by
    simp [List.length_append]
  have htake : (s.data ++ t).take s.data.length = s.data := List.take_left s.data t
  have hdrop : (s.data ++ t).drop s.data.length = t := List.drop_left s.data t
  simp [hle, htake, hdrop]

lemma parseComp_encComp_nil (s : String) : parseComp (encComp s) = some (s, []) := by
  have := parseComp_encComp s []
  simpa using this

lemma aesEncrypt_data (salt : Nat) (m k : String) :
    (aesEncrypt salt m k).data
      = envHeader.data ++ (ones salt ++ ':' :: (encComp k ++ encComp m)) := by
  simp [aesEncrypt]

lemma length_envHeader : envHeader.data.length = 10 := by decide

/-- Round trip at the primitive level: decrypting an envelope with the
key it was produced under recovers the embedded message. -/
lemma aesDecrypt_aesEncrypt (salt : Nat) (m k : String) :
    aesDecrypt (aesEncrypt salt m k) k = m := by
  unfold aesDecrypt
  rw [aesEncrypt_data, List.take_left' length_envHeader, List.drop_left' length_envHeader,
    if_pos rfl, parseSalt_ones]
  simp only [parseComp_encComp, parseComp_encComp_nil]
  simp

/-- Key mismatch at the primitive level: decrypting an envelope with a
different key yields the empty string. -/
lemma aesDecrypt_aesEncrypt_wrong_key (salt : Nat) (m k k' : String) (h : k ≠ k') :
    aesDecrypt (aesEncrypt salt m k) k' = "" := by
  unfold aesDecrypt
  rw [aesEncrypt_data, List.take_left' length_envHeader, List.drop_left' length_envHeader,
    if_pos rfl, parseSalt_ones]
  simp only [parseComp_encComp, parseComp_encComp_nil]
  rw [if_neg (fun hc => h hc.1)]

lemma length_encComp (s : String) : (encComp s).length = 2 * s.data.length + 1 := by
  simp [encComp, ones, List.length_append]
  omega

/-- Ciphertext is strictly longer than the embedded message. -/
lemma length_aesEncrypt (salt : Nat) (m k : String) :
    m.data.length < (aesEncrypt salt m k).data.length := by
  rw [aesEncrypt_data]
  simp [List.length_append, length_encComp, length_envHeader, ones]
  omega

/-- Ciphertext never equals the embedded message. -/
lemma aesEncrypt_ne_message (salt : Nat) (m k : String) :
    aesEncrypt salt m k ≠ m := by
  intro h
  have hlt := length_aesEncrypt salt m k
  rw [h] at hlt
  omega

/-- Ciphertext is never the empty string. -/
lemma aesEncrypt_ne_empty (salt : Nat) (m k : String) :
    aesEncrypt salt m k ≠ "" := by
  intro h
  have hlt := length_aesEncrypt salt m k
  rw [h] at hlt
  simp at hlt

/-- Every envelope starts with the marker "U2F". -/
lemma strStartsWith_aesEncrypt (salt : Nat) (m k : String) :
    strStartsWith (aesEncrypt salt m k) "U2F" = true := by
  unfold strStartsWith
  rw [aesEncrypt_data]
  have h3 : ("U2F" : String).data.length = 3 := by decide
  rw [h3]
  have hle : (3 : Nat) ≤ envHeader.data.length := by rw [length_envHeader]; omega
  rw [List.take_append_of_le_length hle]
  decide

lemma decryptText_aesEncrypt (salt : Nat) (m k : String) (hm : m ≠ "") :
    decryptText (aesEncrypt salt m k) k = Except.ok m := by
  unfold decryptText
  rw [aesDecrypt_aesEncrypt]
  simp [hm]

lemma decryptText_aesEncrypt_empty (salt : Nat) (k : String) :
    decryptText (aesEncrypt salt "" k) k
      = Except.error "Decryption failed or resulted in empty string" := by
  unfold decryptText
  rw [aesDecrypt_aesEncrypt]
  rfl

lemma isEncrypted_aesEncrypt (salt : Nat) (m k : String) (hm : m ≠ "") :
    isEncrypted (aesEncrypt salt m k) k = true := by
  unfold isEncrypted
  rw [if_neg]
  · rw [decryptText_aesEncrypt salt m k hm]
    simp [bne_iff_ne]
    exact fun h => aesEncrypt_ne_message salt m k h.symm
  · push_neg
    exact ⟨aesEncrypt_ne_empty salt m k, strStartsWith_aesEncrypt salt m k⟩

lemma isEncrypted_of_decrypt_error (text key e : String)
    (h : decryptText text key = Except.error e) :
    isEncrypted text key = false := by
  unfold isEncrypted
  by_cases hc : text = "" ∨ ¬ strStartsWith text "U2F"
  · rw [if_pos hc]
  · rw [if_neg hc, h]

lemma isEncrypted_empty (key : String) : isEncrypted "" key = false := by
  unfold isEncrypted
  rw [if_pos (Or.inl rfl)]

lemma isEncrypted_no_marker (text key : String)
    (h : strStartsWith text "U2F" = false) :
    isEncrypted text key = false := by
  unfold isEncrypted
  rw [if_pos (Or.inr (by simp [h]))]

/-- When isEncrypted returns true, decryptText succeeds on that input
with a result that differs from the input. -/
lemma decryptText_ok_of_isEncrypted (text key : String)
    (h : isEncrypted text key = true) :
    ∃ d, decryptText text key = Except.ok d ∧ d ≠ text := by
  unfold isEncrypted at h
  by_cases hc : text = "" ∨ ¬ strStartsWith text "U2F"
  · rw [if_pos hc] at h
    exact absurd h (by simp)
  · rw [if_neg hc] at h
    cases hd : decryptText text key with
    | ok d =>
      rw [hd] at h
      exact ⟨d, rfl, bne_iff_ne.mp h⟩
    | error e =>
      rw [hd] at h
      exact absurd h (by simp)

lemma LocalStorage.getItem_setItem (st : LocalStorage) (k v : String) :
    (st.setItem k v).getItem k = some v := by
  simp [LocalStorage.getItem, LocalStorage.setItem, List.find?]

lemma generateLocalEncryptionKey_stored (fresh : String) (st : LocalStorage)
    (k : String) (h : st.getItem localStorageKeyName = some k) :
    generateLocalEncryptionKey fresh st = (k, st) := by
  unfold generateLocalEncryptionKey
  rw [h]

lemma generateLocalEncryptionKey_fresh (fresh : String) (st : LocalStorage)
    (h : st.getItem localStorageKeyName = none) :
    generateLocalEncryptionKey fresh st
      = (fresh, st.setItem localStorageKeyName fresh) := by
  unfold generateLocalEncryptionKey
  rw [h]

/-- After one call, the slot holds exactly the key that was returned. -/
lemma getItem_ensureKey (fresh : String) (st : LocalStorage) :
    (ensureKey fresh st).getItem localStorageKeyName
      = some (localKey fresh st) := by
  unfold ensureKey localKey generateLocalEncryptionKey
  cases h : st.getItem localStorageKeyName with
  | some k => simpa using h
  | none => simpa using LocalStorage.getItem_setItem st localStorageKeyName fresh

/-- A second call is a no-op returning the same key, whatever fresh
randomness it draws. -/
lemma generateLocalEncryptionKey_idem (fresh fresh' : String) (st : LocalStorage) :
    generateLocalEncryptionKey fresh' (ensureKey fresh st)
      = (localKey fresh st, ensureKey fresh st) :=
  generateLocalEncryptionKey_stored fresh' (ensureKey fresh st)
    (localKey fresh st) (getItem_ensureKey fresh st)

lemma localKey_ensureKey (fresh fresh' : String) (st : LocalStorage) :
    localKey fresh' (ensureKey fresh st) = localKey fresh st := by
  show (generateLocalEncryptionKey fresh' (ensureKey fresh st)).1 = localKey fresh st
  rw [generateLocalEncryptionKey_idem]

lemma ensureKey_idem (fresh fresh' : String) (st : LocalStorage) :
    ensureKey fresh' (ensureKey fresh st) = ensureKey fresh st := by
  show (generateLocalEncryptionKey fresh' (ensureKey fresh st)).2 = ensureKey fresh st
  rw [generateLocalEncryptionKey_idem]

-- Gateway lemmas.

lemma encryptPromptBody_eq (fresh : String) (salt : Nat) (p : Prompt)
    (st : LocalStorage) :
    encryptPromptBody fresh salt p st
      = if isEncrypted p.content (localKey fresh st) then
          (Except.ok p, ensureKey fresh st)
        else
          (Except.ok { p with content := encryptText salt p.content (localKey fresh st) },
            ensureKey fresh st) := by
  unfold encryptPromptBody localKey ensureKey
  rfl

lemma decryptPromptBody_never_errors (fresh : String) (p : Prompt)
    (st : LocalStorage) :
    decryptPromptBody fresh p st
      = if isEncrypted p.content (localKey fresh st) then
          (Except.ok { p with
              content := aesDecrypt p.content (localKey fresh st) },
            ensureKey fresh st)
        else (Except.ok p, ensureKey fresh st) := by
  unfold decryptPromptBody
  have h1 : (generateLocalEncryptionKey fresh st).1 = localKey fresh st := rfl
  have h2 : (generateLocalEncryptionKey fresh st).2 = ensureKey fresh st := rfl
  rw [h1, h2]
  by_cases h : isEncrypted p.content (localKey fresh st)
  · obtain ⟨d, hd, _⟩ := decryptText_ok_of_isEncrypted _ _ h
    have hd2 : d = aesDecrypt p.content (localKey fresh st) := by
      unfold decryptText at hd
      by_cases he : aesDecrypt p.content (localKey fresh st) = ""
      · rw [if_pos he] at hd
        exact absurd hd (by simp)
      · rw [if_neg he] at hd
        simpa using hd.symm
    rw [if_neg (by simp [h]), if_pos h, hd, hd2]
  · rw [if_pos (by simp [h]), if_neg h]

lemma decryptPrompt_eq (fresh : String) (p : Prompt) (st : LocalStorage) :
    decryptPrompt fresh p st
      = if isEncrypted p.content (localKey fresh st) then
          ({ p with content := aesDecrypt p.content (localKey fresh st) },
            ensureKey fresh st)
        else (p, ensureKey fresh st) := by
  unfold decryptPrompt
  rw [decryptPromptBody_never_errors]
  by_cases h : isEncrypted p.content (localKey fresh st)
  · rw [if_pos h, if_pos h]
  · rw [if_neg h, if_neg h]

lemma decryptPrompt_state (fresh : String) (p : Prompt) (st : LocalStorage) :
    (decryptPrompt fresh p st).2 = ensureKey fresh st := by
  rw [decryptPrompt_eq]
  by_cases h : isEncrypted p.content (localKey fresh st)
  · rw [if_pos h]
  · rw [if_neg h]

lemma decryptPrompt_value_ensure (fresh : String) (p : Prompt)
    (st : LocalStorage) :
    (decryptPrompt fresh p (ensureKey fresh st)).1
      = (decryptPrompt fresh p st).1 := by
  rw [decryptPrompt_eq, decryptPrompt_eq, localKey_ensureKey]
  by_cases h : isEncrypted p.content (localKey fresh st)
  · rw [if_pos h, if_pos h]
  · rw [if_neg h, if_neg h]

lemma decryptPromptOnDemandBody_never_errors (fresh : String) (p : Prompt)
    (st : LocalStorage) :
    decryptPromptOnDemandBody fresh p st
      = if isEncrypted p.content (localKey fresh st) then
          (Except.ok (aesDecrypt p.content (localKey fresh st)),
            ensureKey fresh st)
        else (Except.ok p.content, ensureKey fresh st) := by
  unfold decryptPromptOnDemandBody
  have h1 : (generateLocalEncryptionKey fresh st).1 = localKey fresh st := rfl
  have h2 : (generateLocalEncryptionKey fresh st).2 = ensureKey fresh st := rfl
  rw [h1, h2]
  by_cases h : isEncrypted p.content (localKey fresh st)
  · obtain ⟨d, hd, _⟩ := decryptText_ok_of_isEncrypted _ _ h
    have hd2 : d = aesDecrypt p.content (localKey fresh st) := by
      unfold decryptText at hd
      by_cases he : aesDecrypt p.content (localKey fresh st) = ""
      · rw [if_pos he] at hd
        exact absurd hd (by simp)
      · rw [if_neg he] at hd
        simpa using hd.symm
    rw [if_neg (by simp [h]), if_pos h, hd, hd2]
  · rw [if_pos (by simp [h]), if_neg h]

lemma encryptPrompt_eq (fresh : String) (salt : Nat) (p : Prompt)
    (st : LocalStorage) :
    encryptPrompt fresh salt p st
      = if isEncrypted p.content (localKey fresh st) then (p, ensureKey fresh st)
        else ({ p with content := encryptText salt p.content (localKey fresh st) },
            ensureKey fresh st) := by
  unfold encryptPrompt
  rw [encryptPromptBody_eq]
  by_cases h : isEncrypted p.content (localKey fresh st)
  · rw [if_pos h, if_pos h]
  · rw [if_neg h, if_neg h]

lemma encryptPrompt_state (fresh : String) (salt : Nat) (p : Prompt)
    (st : LocalStorage) :
    (encryptPrompt fresh salt p st).2 = ensureKey fresh st := by
  rw [encryptPrompt_eq]
  by_cases h : isEncrypted p.content (localKey fresh st)
  · rw [if_pos h]
  · rw [if_neg h]

/-- encryptPrompt only ever touches the content field. -/
lemma encryptPrompt_shape (fresh : String) (salt : Nat) (p : Prompt)
    (st : LocalStorage) :
    ∃ c, (encryptPrompt fresh salt p st).1 = { p with content := c } := by
  rw [encryptPrompt_eq]
  by_cases h : isEncrypted p.content (localKey fresh st)
  · rw [if_pos h]
    exact ⟨p.content, rfl⟩
  · rw [if_neg h]
    exact ⟨encryptText salt p.content (localKey fresh st), rfl⟩

lemma isEncrypted_marker_of_true (t k : String) (h : isEncrypted t k = true) :
    strStartsWith t "U2F" = true := by
  unfold isEncrypted at h
  by_cases hc : t = "" ∨ ¬ strStartsWith t "U2F" = true
  · rw [if_pos hc] at h
    exact absurd h (by simp)
  · push_neg at hc
    exact hc.2

-- ---------------------------------------------------------------------
-- Claim theorems
-- ---------------------------------------------------------------------

/-- C1 counterexample: the round trip fails on the empty plaintext —
decrypting the encryption of "" raises instead of returning "". -/
theorem roundtrip_fails_on_empty :
    decryptText (encryptText 0 "" "key1") "key1" ≠ Except.ok "" := by
  have h : decryptText (encryptText 0 "" "key1") "key1"
      = Except.error "Decryption failed or resulted in empty string" :=
    decryptText_aesEncrypt_empty 0 "key1"
  rw [h]
  intro hc
  exact Except.noConfusion hc

/-- C1 (amended): for every nonempty plaintext p, key k and salt,
decryptText (encryptText p k) k yields p; the empty plaintext is
excluded because its decryption is empty and decryptText raises then. -/
theorem decrypt_encrypt_roundtrip (salt : Nat) (p k : String) (hp : p ≠ "") :
    decryptText (encryptText salt p k) k = Except.ok p := by
  unfold encryptText
  exact decryptText_aesEncrypt salt p k hp

/-- C1 witness: Scenario A on "Hello World" under "key1". -/
theorem decrypt_encrypt_roundtrip_witness :
    ("Hello World" : String) ≠ ""
  ∧ decryptText (encryptText 0 "Hello World" "key1") "key1"
      = Except.ok "Hello World" :=
  ⟨by decide, decrypt_encrypt_roundtrip 0 "Hello World" "key1" (by decide)⟩

/-- C2: isEncrypted is false on empty input or input without the "U2F"
marker; otherwise it is true exactly when decryptText succeeds with a
result different from the input, and any decryption error yields false
rather than an exception. -/
theorem isEncrypted_spec (t k : String) :
    (t = "" → isEncrypted t k = false)
  ∧ (strStartsWith t "U2F" = false → isEncrypted t k = false)
  ∧ (∀ d, decryptText t k = Except.ok d →
      (isEncrypted t k = true ↔ strStartsWith t "U2F" = true ∧ d ≠ t))
  ∧ (∀ e, decryptText t k = Except.error e → isEncrypted t k = false) := by
  refine ⟨?_, ?_, ?_, ?_⟩
  · intro h
    subst h
    exact isEncrypted_empty k
  · intro h
    exact isEncrypted_no_marker t k h
  · intro d hd
    constructor
    · intro henc
      obtain ⟨d', hd', hne⟩ := decryptText_ok_of_isEncrypted t k henc
      rw [hd] at hd'
      have hdd : d' = d := by
        have := hd'.symm
        simpa using this
      subst hdd
      exact ⟨isEncrypted_marker_of_true t k henc, hne⟩
    · rintro ⟨hsw, hne⟩
      have ht : t ≠ "" := by
        intro h0
        subst h0
        rw [show strStartsWith "" "U2F" = false from by decide] at hsw
        exact Bool.noConfusion hsw
      unfold isEncrypted
      rw [if_neg (by simp [ht, hsw]), hd]
      simpa using bne_iff_ne.mpr hne
  · intro e he
    exact isEncrypted_of_decrypt_error t k e he

/-- C2 witness: Scenario C, a plain text without the marker is reported
unencrypted. -/
theorem isEncrypted_spec_witness :
    strStartsWith "plain text" "U2F" = false
  ∧ isEncrypted "plain text" "anyKey" = false :=
  ⟨by decide, (isEncrypted_spec "plain text" "anyKey").2.1 (by decide)⟩

/-- C5: an empty decrypted result makes decryptText return the
decryption-failure error, and a successful result is never the empty
string (the error path re-raises rather than swallowing). -/
theorem decryptText_strict (ct k : String) :
    (aesDecrypt ct k = "" →
      decryptText ct k = Except.error "Decryption failed or resulted in empty string")
  ∧ (∀ d, decryptText ct k = Except.ok d → d = aesDecrypt ct k ∧ d ≠ "") := by
  constructor
  · intro h
    unfold decryptText
    rw [h]
    rfl
  · intro d hd
    unfold decryptText at hd
    by_cases he : aesDecrypt ct k = ""
    · rw [if_pos he] at hd
      exact absurd hd (by simp)
    · rw [if_neg he] at hd
      have hdd : aesDecrypt ct k = d := by simpa using hd
      exact ⟨hdd.symm, hdd ▸ he⟩

/-- C5 witness: Scenario B, decrypting under the wrong key raises. -/
theorem decryptText_strict_witness :
    aesDecrypt (encryptText 0 "x" "key1") "key2" = ""
  ∧ decryptText (encryptText 0 "x" "key1") "key2"
      = Except.error "Decryption failed or resulted in empty string" :=
  ⟨by decide, (decryptText_strict (encryptText 0 "x" "key1") "key2").1 (by decide)⟩

/-- C3 counterexample: a record with empty content defeats the
idempotence guard — its encryption decrypts to the empty string, which
decryptText rejects, so isEncrypted stays false and a second
encryptPrompt wraps the ciphertext again. -/
theorem encryptPrompt_not_idempotent_on_empty :
    encryptPrompt "f" 0 (encryptPrompt "f" 0 (mkPrompt (some "1") "") seededStore).1
        (encryptPrompt "f" 0 (mkPrompt (some "1") "") seededStore).2
      ≠ ((encryptPrompt "f" 0 (mkPrompt (some "1") "") seededStore).1,
         (encryptPrompt "f" 0 (mkPrompt (some "1") "") seededStore).2) := by
  decide

/-- C3 (amended): encryptPrompt is idempotent for every record whose
content is nonempty (in particular nonempty plaintext, or valid
ciphertext of a nonempty plaintext), and a record whose content is
already ciphertext of a nonempty plaintext under the active key comes
back unchanged; a record with empty content is re-encrypted on every
pass. -/
theorem encryptPrompt_idempotent_nonempty (fresh fresh' : String)
    (salt salt' : Nat) (p : Prompt) (st : LocalStorage)
    (hp : p.content ≠ "") :
    encryptPrompt fresh' salt' (encryptPrompt fresh salt p st).1
        (encryptPrompt fresh salt p st).2
      = ((encryptPrompt fresh salt p st).1, (encryptPrompt fresh salt p st).2)
  ∧ (∀ s m, m ≠ "" → p.content = aesEncrypt s m (localKey fresh st) →
      (encryptPrompt fresh salt p st).1 = p) := by
  constructor
  · rw [encryptPrompt_eq fresh salt p st]
    by_cases h : isEncrypted p.content (localKey fresh st)
    · rw [if_pos h]
      rw [encryptPrompt_eq, localKey_ensureKey, if_pos h, ensureKey_idem]
    · rw [if_neg h]
      rw [encryptPrompt_eq, localKey_ensureKey]
      have henc : isEncrypted
          (encryptText salt p.content (localKey fresh st)) (localKey fresh st)
            = true :=
        isEncrypted_aesEncrypt salt p.content (localKey fresh st) hp
      rw [if_pos henc, ensureKey_idem]
  · intro s m hm hpc
    rw [encryptPrompt_eq]
    have henc : isEncrypted p.content (localKey fresh st) = true := by
      rw [hpc]
      exact isEncrypted_aesEncrypt s m (localKey fresh st) hm
    rw [if_pos henc]

/-- C3 witness: a record whose content is valid ciphertext of the
nonempty plaintext "Hello" under the active key is returned unchanged. -/
theorem encryptPrompt_idempotent_nonempty_witness :
    (mkPrompt (some "1") (aesEncrypt 0 "Hello" "key1")).content ≠ ""
  ∧ (encryptPrompt "f" 0 (mkPrompt (some "1") (aesEncrypt 0 "Hello" "key1"))
        seededStore).1
      = mkPrompt (some "1") (aesEncrypt 0 "Hello" "key1") :=
  ⟨by decide,
    (encryptPrompt_idempotent_nonempty "f" "f" 0 0
        (mkPrompt (some "1") (aesEncrypt 0 "Hello" "key1")) seededStore
        (by decide)).2 0 "Hello" (by decide) (by decide)⟩

/-- C4: no gateway operation propagates a crypto failure — the bodies of
encryptPrompt, decryptPrompt and decryptPromptOnDemand never reach their
catch with an error in this model, and on a record whose content fails
to decrypt under the active key decryptPrompt returns the record
unmodified and decryptPromptOnDemand returns the stored content string. -/
theorem gateway_never_propagates (fresh : String) (salt : Nat) (p : Prompt)
    (st : LocalStorage) :
    exceptIsOk (encryptPromptBody fresh salt p st).1 = true
  ∧ exceptIsOk (decryptPromptBody fresh p st).1 = true
  ∧ exceptIsOk (decryptPromptOnDemandBody fresh p st).1 = true
  ∧ (∀ e, decryptText p.content (localKey fresh st) = Except.error e →
      (decryptPrompt fresh p st).1 = p
      ∧ (decryptPromptOnDemand fresh p st).1 = p.content) := by
  refine ⟨?_, ?_, ?_, ?_⟩
  · rw [encryptPromptBody_eq]
    by_cases h : isEncrypted p.content (localKey fresh st)
    · rw [if_pos h]
      rfl
    · rw [if_neg h]
      rfl
  · rw [decryptPromptBody_never_errors]
    by_cases h : isEncrypted p.content (localKey fresh st)
    · rw [if_pos h]
      rfl
    · rw [if_neg h]
      rfl
  · rw [decryptPromptOnDemandBody_never_errors]
    by_cases h : isEncrypted p.content (localKey fresh st)
    · rw [if_pos h]
      rfl
    · rw [if_neg h]
      rfl
  · intro e he
    have hne : isEncrypted p.content (localKey fresh st) = false :=
      isEncrypted_of_decrypt_error p.content (localKey fresh st) e he
    constructor
    · rw [decryptPrompt_eq, if_neg (by simp [hne])]
    · unfold decryptPromptOnDemand
      rw [decryptPromptOnDemandBody_never_errors, if_neg (by simp [hne])]

/-- C4 witness: a record whose content carries the marker but is not a
valid envelope fails to decrypt, and both read operations fall back to
the stored content without raising. -/
theorem gateway_never_propagates_witness :
    decryptText (mkPrompt (some "1") "U2Fbroken").content (localKey "key1" emptyStore)
      = Except.error "Decryption failed or resulted in empty string"
  ∧ (decryptPrompt "key1" (mkPrompt (some "1") "U2Fbroken") emptyStore).1
      = mkPrompt (some "1") "U2Fbroken"
  ∧ (decryptPromptOnDemand "key1" (mkPrompt (some "1") "U2Fbroken") emptyStore).1
      = (mkPrompt (some "1") "U2Fbroken").content :=
  ⟨by decide,
    ((gateway_never_propagates "key1" 0 (mkPrompt (some "1") "U2Fbroken")
        emptyStore).2.2.2 "Decryption failed or resulted in empty string"
      (by decide)).1,
    ((gateway_never_propagates "key1" 0 (mkPrompt (some "1") "U2Fbroken")
        emptyStore).2.2.2 "Decryption failed or resulted in empty string"
      (by decide)).2⟩

/-- C6 counterexample: a record carrying isPublic = true reaches the
store's update operation with isPublic still present — updatePrompt does
not strip it. -/
theorem updatePrompt_keeps_isPublic :
    ((updatePromptArg "key1" 0
        { mkPrompt (some "1") "c" with isPublic := some true }
        seededStore).1.toOption.map Prompt.isPublic)
      = some (some true) := by
  decide

/-- C6 (amended): updatePrompt itself passes every field other than
content through unchanged — including isPublic — and forces the id; the
isPublic stripping happens in the page save handler, which removes
isPublic and stamps updatedAt on the payload before calling
updatePrompt. -/
theorem updatePrompt_field_handling (fresh : String) (salt : Nat) (p : Prompt)
    (st : LocalStorage) (now : Nat) (h : ¬ (p.id = none ∨ p.id = some "")) :
    (∀ q, (updatePromptArg fresh salt p st).1 = Except.ok q →
        q.id = p.id ∧ q.title = p.title ∧ q.type = p.type
      ∧ q.description = p.description ∧ q.examples = p.examples
      ∧ q.createdAt = p.createdAt ∧ q.updatedAt = p.updatedAt
      ∧ q.userId = p.userId ∧ q.isPublic = p.isPublic
      ∧ q.publicChangedAt = p.publicChangedAt)
  ∧ (onSaveUpdateData p now).isPublic = none
  ∧ (onSaveUpdateData p now).id = p.id
  ∧ (onSaveUpdateData p now).title = p.title
  ∧ (onSaveUpdateData p now).content = p.content
  ∧ (onSaveUpdateData p now).updatedAt = now := by
  refine ⟨?_, rfl, rfl, rfl, rfl, rfl⟩
  intro q hq
  unfold updatePromptArg at hq
  rw [if_neg h] at hq
  obtain ⟨c, hc⟩ := encryptPrompt_shape fresh salt p st
  rw [hc] at hq
  simp only [Except.ok.injEq] at hq
  subst hq
  exact ⟨rfl, rfl, rfl, rfl, rfl, rfl, rfl, rfl, rfl, rfl⟩

/-- C6 witness: the amended behaviour at a concrete record with a valid
id; the save handler strips isPublic while updatePrompt does not. -/
theorem updatePrompt_field_handling_witness :
    ¬ (({ mkPrompt (some "1") "c" with isPublic := some true } : Prompt).id = none
        ∨ ({ mkPrompt (some "1") "c" with isPublic := some true } : Prompt).id = some "")
  ∧ (onSaveUpdateData { mkPrompt (some "1") "c" with isPublic := some true } 5).isPublic
      = none :=
  ⟨by decide,
    (updatePrompt_field_handling "key1" 0
        { mkPrompt (some "1") "c" with isPublic := some true }
        seededStore 5 (by decide)).2.1⟩

/-- C7: decryptPrompts returns one record per input record, in order,
each equal to decryptPrompt of the corresponding input under the
key-initialised store, so length and order are preserved. -/
theorem decryptPrompts_is_map (fresh : String) (ps : List Prompt)
    (st : LocalStorage) :
    (decryptPrompts fresh ps st).1
      = ps.map (fun p => (decryptPrompt fresh p (ensureKey fresh st)).1)
  ∧ (decryptPrompts fresh ps st).1.length = ps.length := by
  have hmap : ∀ qs : List Prompt, ∀ s : LocalStorage,
      (decryptPrompts fresh qs s).1
        = qs.map (fun p => (decryptPrompt fresh p (ensureKey fresh s)).1) := by
    intro qs
    induction qs with
    | nil => intro s; rfl
    | cons p rest ih =>
      intro s
      show (decryptPrompt fresh p s).1
            :: (decryptPrompts fresh rest (decryptPrompt fresh p s).2).1
          = (decryptPrompt fresh p (ensureKey fresh s)).1
            :: rest.map (fun q => (decryptPrompt fresh q (ensureKey fresh s)).1)
      rw [decryptPrompt_value_ensure, decryptPrompt_state, ih (ensureKey fresh s)]
      simp only [ensureKey_idem]
  refine ⟨hmap ps st, ?_⟩
  rw [hmap ps st, List.length_map]

/-- C8: when the durable slot is empty, the first call to
generateLocalEncryptionKey stores the freshly generated key there, and
every later call — whatever fresh randomness it draws — returns that
same key and leaves the storage unchanged. -/
theorem localKey_generated_once (fresh : String) (st : LocalStorage)
    (h : st.getItem localStorageKeyName = none) :
    generateLocalEncryptionKey fresh st
      = (fresh, st.setItem localStorageKeyName fresh)
  ∧ ∀ fresh', generateLocalEncryptionKey fresh'
        (st.setItem localStorageKeyName fresh)
      = (fresh, st.setItem localStorageKeyName fresh) := by
  refine ⟨generateLocalEncryptionKey_fresh fresh st h, ?_⟩
  intro fresh'
  exact generateLocalEncryptionKey_stored fresh'
    (st.setItem localStorageKeyName fresh) fresh
    (LocalStorage.getItem_setItem st localStorageKeyName fresh)

/-- C8 witness: starting from an empty store, the first call stores the
fresh key and a second call with different randomness returns it
unchanged. -/
theorem localKey_generated_once_witness :
    emptyStore.getItem localStorageKeyName = none
  ∧ generateLocalEncryptionKey "k2" (emptyStore.setItem localStorageKeyName "k1")
      = ("k1", emptyStore.setItem localStorageKeyName "k1") :=
  ⟨by decide, (localKey_generated_once "k1" emptyStore (by decide)).2 "k2"⟩

/-- C9: copyPrompt fetches the source with decryption enabled; when the
source exists the record handed to addPrompt carries the decrypted
content of the original, and when it does not exist copyPrompt throws. -/
theorem copyPrompt_decrypts_source (fresh : String) (now : Nat) (pid : String)
    (db : List Prompt) (st : LocalStorage) :
    (∀ orig, findPromptById db pid = some orig →
        copyPromptArg fresh now pid db st
          = (Except.ok (copyNewRecord (decryptPrompt fresh orig st).1 now),
             (decryptPrompt fresh orig st).2)
      ∧ (copyNewRecord (decryptPrompt fresh orig st).1 now).content
          = (decryptPrompt fresh orig st).1.content)
  ∧ (findPromptById db pid = none →
      copyPromptArg fresh now pid db st
        = (Except.error "要复制的提示词不存在。", st)) := by
  constructor
  · intro orig h
    constructor
    · unfold copyPromptArg getPromptById
      rw [h]
      rfl
    · rfl
  · intro h
    unfold copyPromptArg getPromptById
    rw [h]

/-- C9 witness: copying an existing record whose content is ciphertext
of "Secret": the record built for addPrompt carries the decrypted
content. -/
theorem copyPrompt_decrypts_source_witness :
    findPromptById [mkPrompt (some "1") (aesEncrypt 0 "Secret" "key1")] "1"
      = some (mkPrompt (some "1") (aesEncrypt 0 "Secret" "key1"))
  ∧ copyPromptArg "key1" 7 "1"
        [mkPrompt (some "1") (aesEncrypt 0 "Secret" "key1")] seededStore
      = (Except.ok (copyNewRecord
            (decryptPrompt "key1"
              (mkPrompt (some "1") (aesEncrypt 0 "Secret" "key1")) seededStore).1 7),
         (decryptPrompt "key1"
            (mkPrompt (some "1") (aesEncrypt 0 "Secret" "key1")) seededStore).2) :=
  ⟨by decide,
    ((copyPrompt_decrypts_source "key1" 7 "1"
        [mkPrompt (some "1") (aesEncrypt 0 "Secret" "key1")] seededStore).1
      (mkPrompt (some "1") (aesEncrypt 0 "Secret" "key1")) (by decide)).1⟩

/-- C10: when a selection with the same promptId and userId already
exists, addUserPromptSelection returns it and leaves the store
untouched, and the no-duplicate invariant on (promptId, userId) pairs is
preserved by the operation in all cases. -/
theorem addUserPromptSelection_no_duplicates (now newId : Nat)
    (pid uid : String) (db : List UserPromptSelection) :
    (∀ s, db.find? (selMatches pid uid) = some s →
        addUserPromptSelection now newId pid uid db = (s, db))
  ∧ (NoDupSelection db →
      NoDupSelection (addUserPromptSelection now newId pid uid db).2) := by
  constructor
  · intro s hs
    have hmem : s ∈ db := List.mem_of_find?_eq_some hs
    have hpred : selMatches pid uid s = true := List.find?_some hs
    have hany : db.any (selMatches pid uid) = true :=
      List.any_eq_true.mpr ⟨s, hmem, hpred⟩
    unfold addUserPromptSelection
    rw [if_pos hany, hs]
    rfl
  · intro hnd
    unfold addUserPromptSelection
    by_cases hany : db.any (selMatches pid uid) = true
    · rw [if_pos hany]
      exact hnd
    · rw [if_neg hany]
      show NoDupSelection (db ++ [_])
      unfold NoDupSelection at hnd ⊢
      rw [List.pairwise_append]
      refine ⟨hnd, by simp, ?_⟩
      intro a ha b hb
      have hb' : b = (⟨some newId, uid, pid, now⟩ : UserPromptSelection) := by
        simpa using hb
      subst hb'
      rintro ⟨h1, h2⟩
      apply hany
      refine List.any_eq_true.mpr ⟨a, ha, ?_⟩
      unfold selMatches
      simp only [Bool.and_eq_true, beq_iff_eq]
      exact ⟨h1, h2⟩

/-- C10 witness: inserting an already-present (promptId, userId) pair
returns the stored selection and leaves the store unchanged. -/
theorem addUserPromptSelection_no_duplicates_witness :
    [sel0].find? (selMatches "p1" "u") = some sel0
  ∧ addUserPromptSelection 5 2 "p1" "u" [sel0] = (sel0, [sel0]) :=
  ⟨by decide,
    (addUserPromptSelection_no_duplicates 5 2 "p1" "u" [sel0]).1 sel0 (by decide)⟩
